import Mathlib

/-!
# Verification of `src/lib/webRingNavigation.ts`

A shallow embedding of the webring navigation module.  JavaScript strings are
modelled as lists of characters (`JStr`); the WHATWG `URL` constructor used by
the source is modelled by `parseURL`, restricted to the `http`/`https` schemes
and ASCII authority strings: it lower-cases the hostname, parses an explicit
port as a number, rejects ports above 65535, and elides the scheme's default
port (`new URL("https://x:443").port` is `""`), exactly as the real parser
does on this fragment.  Parse failure (the constructor throwing) is the `none`
result.  The four functions of the source file are translated one branch at a
time: `normalizeHostname`, `normalizeOrigin`, `findCurrentSiteIndex`,
`calculateNavigationIndices` and `calculateWebRingNavigation`.  The ambient
`window.location.origin` read is passed as an explicit `Option JStr`
parameter (`none` models `typeof window === 'undefined'`).
-/

/-- JavaScript strings, modelled as lists of characters (ASCII fragment). -/
abbrev JStr := List Char

/-- Coerce a Lean string literal to the JavaScript string model. -/
def js (s : String) : JStr := s.data

/-- ASCII lower-casing of a single character, modelling
`String.prototype.toLowerCase` (and case-insensitive regex matching) on the
ASCII fragment. -/
def lowerChar (c : Char) : Char :=
  match c with
  | 'A' => 'a' | 'B' => 'b' | 'C' => 'c' | 'D' => 'd' | 'E' => 'e' | 'F' => 'f'
  | 'G' => 'g' | 'H' => 'h' | 'I' => 'i' | 'J' => 'j' | 'K' => 'k' | 'L' => 'l'
  | 'M' => 'm' | 'N' => 'n' | 'O' => 'o' | 'P' => 'p' | 'Q' => 'q' | 'R' => 'r'
  | 'S' => 's' | 'T' => 't' | 'U' => 'u' | 'V' => 'v' | 'W' => 'w' | 'X' => 'x'
  | 'Y' => 'y' | 'Z' => 'z'
  | c => c

/-- Lower-casing of a JavaScript string. -/
def toLower (s : JStr) : JStr := s.map lowerChar

/-- Numeric value of a decimal digit character. -/
def digitVal (c : Char) : Nat := c.toNat - 48

/-- Value of a big-endian decimal digit string (how the URL parser reads an
explicit port). -/
def digitsToNat (l : JStr) : Nat := l.foldl (fun a c => 10 * a + digitVal c) 0

/-- The decimal digit character for a value below ten. -/
def digitChar (d : Nat) : Char :=
  match d with
  | 0 => '0' | 1 => '1' | 2 => '2' | 3 => '3' | 4 => '4'
  | 5 => '5' | 6 => '6' | 7 => '7' | 8 => '8' | _ => '9'

/-- Fuel-driven decimal rendering (big-endian, no leading zeros). -/
def renderAux : Nat → Nat → JStr
  | 0, _ => []
  | fuel + 1, n => if n = 0 then [] else renderAux fuel (n / 10) ++ [digitChar (n % 10)]

/-- Decimal rendering of a natural number, modelling how the `URL.port`
getter serialises the stored port integer. -/
def renderNat (n : Nat) : JStr := if n = 0 then ['0'] else renderAux n n

/-- Characters that may appear in the host of a parseable URL: the model
rejects the authority delimiters and whitespace that make the real
constructor throw (or that would change the shape of the authority). -/
def isHostChar (c : Char) : Bool :=
  !(c == ' ' || c == '/' || c == ':' || c == '?' || c == '#' || c == '@' ||
    c == '\\' || c == '[' || c == ']' || c == '\t' || c == '\n' || c == '\r')

/-- ASCII decimal digit test (the URL parser accepts only ASCII digits in an
explicit port). -/
def isDigitChar (c : Char) : Bool := 48 ≤ c.toNat && c.toNat ≤ 57

/-- The components of a successfully parsed URL that the source reads:
`url.protocol` (lower-case, with trailing colon), `url.hostname`
(lower-case) and `url.port` (serialised digits, empty when absent or equal
to the scheme's default). -/
structure ParsedURL where
  protocol : JStr
  hostname : JStr
  port : JStr
deriving DecidableEq

/-- Default port of a scheme (443 for https, 80 for http). -/
def defaultPort (protocol : JStr) : Nat := if protocol = js "https:" then 443 else 80

/-- Splits off the scheme: accepts exactly `http://` and `https://` prefixes,
case-insensitively, returning the lower-cased `protocol` value and the rest
of the string. -/
def schemeSplit (s : JStr) : Option (JStr × JStr) :=
  if (js "http://").isPrefixOf (toLower s) then some (js "http:", s.drop 7)
  else if (js "https://").isPrefixOf (toLower s) then some (js "https:", s.drop 8)
  else none

/-- Model of `new URL(s)` restricted to the fragment the source exercises.
`none` models the constructor throwing. -/
def parseURL (s : JStr) : Option ParsedURL :=
  match schemeSplit s with
  | none => none
  | some (protocol, rest) =>
    let auth := rest.takeWhile (fun c => !(c == '/' || c == '?' || c == '#'))
    let host := auth.takeWhile (fun c => !(c == ':'))
    if host = [] then none
    else if !host.all isHostChar then none
    else if host.length = auth.length then some ⟨protocol, toLower host, []⟩
    else
      let portDigits := auth.drop (host.length + 1)
      if portDigits = [] then some ⟨protocol, toLower host, []⟩
      else if !portDigits.all isDigitChar then none
      else
        let n := digitsToNat portDigits
        if 65535 < n then none
        else if n = defaultPort protocol then some ⟨protocol, toLower host, []⟩
        else some ⟨protocol, toLower host, renderNat n⟩

/-- The digit string of a port written explicitly in the input (the text
between the `:` ending the host and the end of the authority), `none` when
the input has no scheme, no `:` in the authority, or nothing after the `:`.
Mirrors the authority decomposition of `parseURL`. -/
def explicitPortDigits (s : JStr) : Option JStr :=
  match schemeSplit s with
  | none => none
  | some (_, rest) =>
    let auth := rest.takeWhile (fun c => !(c == '/' || c == '?' || c == '#'))
    let host := auth.takeWhile (fun c => !(c == ':'))
    if host.length = auth.length then none
    else
      let portDigits := auth.drop (host.length + 1)
      if portDigits = [] then none else some portDigits

/-- `url.origin` for an http/https URL: `protocol//host` plus the explicit
port when present. -/
def ParsedURL.origin (u : ParsedURL) : JStr :=
  u.protocol ++ js "//" ++ u.hostname ++ (if u.port = [] then [] else ':' :: u.port)

/-- Translation of `normalizeHostname` (line 7): lower-case, then strip one
leading `www.` (the regex `/^www\./` replaces only the first match). -/
def normalizeHostname (hostname : JStr) : JStr :=
  let lower := toLower hostname
  if (js "www.").isPrefixOf lower then lower.drop 4 else lower

/-- Translation of the catch branch of `normalizeOrigin` (line 23): the
substitution `origin.replace(/^(https?:\/\/)www\./i, '$1')`, which keeps the
scheme text as written and removes the four `www.`-characters after it. -/
def stripWwwFallback (origin : JStr) : JStr :=
  if (js "http://www.").isPrefixOf (toLower origin) then origin.take 7 ++ origin.drop 11
  else if (js "https://www.").isPrefixOf (toLower origin) then origin.take 8 ++ origin.drop 12
  else origin

/-- Translation of `normalizeOrigin` (line 15): on successful parsing,
rebuild `protocol//normalizedHostname[:port]`; on parse failure, the regex
fallback. -/
def normalizeOrigin (origin : JStr) : JStr :=
  match parseURL origin with
  | some url =>
    url.protocol ++ js "//" ++ normalizeHostname url.hostname ++
      (if url.port = [] then [] else ':' :: url.port)
  | none => stripWwwFallback origin

/-- States that one application of `normalizeOrigin` already removed every
strippable `www.`: on the parsed path, the normalised hostname no longer
starts with `www.`; on the fallback path, the fallback output neither parses
nor still carries a `www.` right after its scheme delimiter.  Normalisation
is idempotent exactly on such inputs; a doubled `www.www.` host violates
it. -/
def wwwStable (s : JStr) : Bool :=
  match parseURL s with
  | some url => !(js "www.").isPrefixOf (normalizeHostname url.hostname)
  | none =>
    (parseURL (stripWwwFallback s) == none) &&
      !(js "http://www.").isPrefixOf (toLower (stripWwwFallback s)) &&
      !(js "https://www.").isPrefixOf (toLower (stripWwwFallback s))

/-- The predicate of the `findIndex` callback (lines 32-42): parse both the
entry and the current site; when both parse, compare normalised origins,
otherwise (either constructor throwing) compare the raw strings. -/
def siteMatches (currentSite site : JStr) : Bool :=
  match parseURL site, parseURL currentSite with
  | some siteUrl, some currentUrl =>
    normalizeOrigin siteUrl.origin == normalizeOrigin currentUrl.origin
  | _, _ => site == currentSite

/-- Translation of `findCurrentSiteIndex` (line 31): `Array.prototype.findIndex`,
returning -1 when no entry matches. -/
def findCurrentSiteIndex (sites : List JStr) (currentSite : JStr) : Int :=
  match sites.findIdx? (fun site => siteMatches currentSite site) with
  | some i => (i : Int)
  | none => -1

/-- The pair of indices returned by `calculateNavigationIndices`. -/
structure NavIndices where
  prevIndex : Int
  nextIndex : Int
deriving DecidableEq

/-- Translation of `calculateNavigationIndices` (line 48). -/
def calculateNavigationIndices (currentIndex : Int) (sitesLength : Nat) : NavIndices :=
  if currentIndex < 0 then
    { prevIndex := (sitesLength : Int) - 1, nextIndex := 0 }
  else
    { prevIndex := if currentIndex = 0 then (sitesLength : Int) - 1 else currentIndex - 1
      nextIndex := if currentIndex = (sitesLength : Int) - 1 then 0 else currentIndex + 1 }

/-- The result record: `prev` and `next` are each a string or the absent
marker (`null`, and JavaScript's out-of-range `undefined`, both map to
`none`). -/
structure WebRingNavigation where
  prev : Option JStr
  next : Option JStr
deriving DecidableEq

/-- JavaScript array subscript with a (possibly negative) number index. -/
def jsArrayGet (sites : List JStr) (i : Int) : Option JStr :=
  if i < 0 then none else sites[i.toNat]?

/-- JavaScript truthiness of the optional `currentSite` argument: present and
non-empty. -/
def strTruthy : Option JStr → Bool
  | none => false
  | some s => !s.isEmpty

/-- Translation of `calculateWebRingNavigation` (line 71).
`windowLocationOrigin` is the ambient `window.location.origin`, `none` when
`typeof window === 'undefined'`. -/
def calculateWebRingNavigation (sites : List JStr) (currentSite : Option JStr)
    (windowLocationOrigin : Option JStr) : WebRingNavigation :=
  if sites.length = 0 then { prev := none, next := none }
  else
    let currentIndex : Int :=
      if strTruthy currentSite then findCurrentSiteIndex sites (currentSite.getD [])
      else
        match windowLocationOrigin with
        | some w => findCurrentSiteIndex sites w
        | none => -1
    let indices := calculateNavigationIndices currentIndex sites.length
    { prev := jsArrayGet sites indices.prevIndex
      next := jsArrayGet sites indices.nextIndex }

/-- The spec's three-site example list. -/
def demo3 : List JStr := [js "https://a.example", js "https://b.example", js "https://c.example"]

/-! ## Helper lemmas -/

set_option maxHeartbeats 2000000 in
theorem lowerChar_idem (c : Char) : lowerChar (lowerChar c) = lowerChar c := by
  unfold lowerChar
  split <;> try rfl
  all_goals rename_i heq
  all_goals split at heq <;> first | exact absurd heq (by decide) | contradiction

theorem lowerChar_of_isDigitChar {c : Char} (h : isDigitChar c = true) :
    lowerChar c = c := by
  unfold lowerChar
  split <;> first | rfl | exact absurd h (by decide)

theorem isHostChar_lowerChar {c : Char} (h : isHostChar c = true) :
    isHostChar (lowerChar c) = true := by
  unfold lowerChar
  split <;> first | decide | exact h

theorem toLower_idem (s : JStr) : toLower (toLower s) = toLower s := by
  unfold toLower
  rw [List.map_map]
  exact List.map_congr_left fun c _ => lowerChar_idem c

theorem toLower_all_hostChar {s : JStr} (h : s.all isHostChar = true) :
    (toLower s).all isHostChar = true := by
  unfold toLower
  rw [List.all_map, List.all_eq_true] at *
  intro c hc
  exact isHostChar_lowerChar (h c hc)

theorem all_hostChar_drop {s : JStr} (n : Nat) (h : s.all isHostChar = true) :
    (s.drop n).all isHostChar = true := by
  rw [List.all_eq_true] at *
  intro c hc
  exact h c (List.drop_subset n s hc)

theorem toLower_drop (s : JStr) (n : Nat) : toLower (s.drop n) = (toLower s).drop n := by
  unfold toLower
  rw [List.map_drop]

theorem digitVal_digitChar {d : Nat} (h : d < 10) : digitVal (digitChar d) = d := by
  interval_cases d <;> decide

theorem isDigitChar_digitChar {d : Nat} (h : d < 10) : isDigitChar (digitChar d) = true := by
  interval_cases d <;> decide

theorem digitsToNat_append_digit (l : JStr) (c : Char) :
    digitsToNat (l ++ [c]) = 10 * digitsToNat l + digitVal c := by
  unfold digitsToNat
  rw [List.foldl_append]
  rfl

theorem renderAux_val (f : Nat) : ∀ n, n < 10 ^ f → digitsToNat (renderAux f n) = n := by
  induction f with
  | zero =>
    intro n h
    interval_cases n
    rfl
  | succ f ih =>
    intro n h
    unfold renderAux
    by_cases hn : n = 0
    · subst hn
      rw [if_pos rfl]
      rfl
    · have hdiv : n / 10 < 10 ^ f := by
        have hp : 10 ^ (f + 1) = 10 ^ f * 10 := pow_succ 10 f
        omega
      rw [if_neg hn, digitsToNat_append_digit, ih (n / 10) hdiv,
        digitVal_digitChar (Nat.mod_lt _ (by omega))]
      omega

theorem digitsToNat_renderNat (n : Nat) : digitsToNat (renderNat n) = n := by
  unfold renderNat
  by_cases hn : n = 0
  · subst hn
    rw [if_pos rfl]
    decide
  · rw [if_neg hn]
    exact renderAux_val n n (Nat.lt_pow_self (by omega) n)

theorem renderAux_all_digits (f : Nat) : ∀ n, (renderAux f n).all isDigitChar = true := by
  induction f with
  | zero => intro n; rfl
  | succ f ih =>
    intro n
    unfold renderAux
    by_cases hn : n = 0
    · rw [if_pos hn]
      rfl
    · rw [if_neg hn, List.all_append, ih (n / 10)]
      simp [isDigitChar_digitChar (Nat.mod_lt n (by omega))]

theorem renderNat_all_digits (n : Nat) : (renderNat n).all isDigitChar = true := by
  unfold renderNat
  by_cases hn : n = 0
  · rw [if_pos hn]
    decide
  · rw [if_neg hn]
    exact renderAux_all_digits n n

theorem renderNat_ne_nil (n : Nat) : renderNat n ≠ [] := by
  unfold renderNat
  by_cases hn : n = 0
  · rw [if_pos hn]
    simp
  · rw [if_neg hn]
    cases n with
    | zero => exact absurd rfl hn
    | succ m =>
      unfold renderAux
      rw [if_neg hn]
      simp

theorem isDigitChar_not_reserved {c : Char} (h : isDigitChar c = true) :
    (!(c == '/' || c == '?' || c == '#')) = true := by
  have h1 : c ≠ '/' := by rintro rfl; exact absurd h (by decide)
  have h2 : c ≠ '?' := by rintro rfl; exact absurd h (by decide)
  have h3 : c ≠ '#' := by rintro rfl; exact absurd h (by decide)
  simp [h1, h2, h3]

theorem isHostChar_not_reserved {c : Char} (h : isHostChar c = true) :
    (!(c == '/' || c == '?' || c == '#')) = true := by
  have h1 : c ≠ '/' := by rintro rfl; exact absurd h (by decide)
  have h2 : c ≠ '?' := by rintro rfl; exact absurd h (by decide)
  have h3 : c ≠ '#' := by rintro rfl; exact absurd h (by decide)
  simp [h1, h2, h3]

theorem isHostChar_not_colon {c : Char} (h : isHostChar c = true) :
    (!(c == ':')) = true := by
  have h1 : c ≠ ':' := by rintro rfl; exact absurd h (by decide)
  simp [h1]

theorem takeWhile_eq_self_of_all {p : Char → Bool} {l : JStr}
    (h : ∀ c ∈ l, p c = true) : l.takeWhile p = l := by
  induction l with
  | nil => rfl
  | cons x xs ih =>
    rw [List.takeWhile_cons_of_pos (h x (by simp))]
    rw [ih fun c hc => h c (by simp [hc])]

theorem isPrefixOf_append_self (l r : JStr) : l.isPrefixOf (l ++ r) = true := by
  simp

theorem isPrefixOf_append_cancel (a b c : JStr) :
    (a ++ b).isPrefixOf (a ++ c) = b.isPrefixOf c := by
  induction a with
  | nil => rfl
  | cons x xs ih => simp [List.isPrefixOf, ih]

theorem toLower_append (a b : JStr) : toLower (a ++ b) = toLower a ++ toLower b := by
  unfold toLower
  rw [List.map_append]

theorem http_not_prefixOf_https (x : JStr) :
    (js "http://").isPrefixOf (js "https://" ++ x) = false := rfl

theorem httpwww_not_prefixOf_https (x : JStr) :
    (js "http://www.").isPrefixOf (js "https://" ++ x) = false := rfl

theorem httpswww_not_prefixOf_http (x : JStr) :
    (js "https://www.").isPrefixOf (js "http://" ++ x) = false := rfl

theorem schemeSplit_http (rest : JStr) :
    schemeSplit (js "http:" ++ js "//" ++ rest) = some (js "http:", rest) := by
  unfold schemeSplit
  rw [show js "http:" ++ js "//" = js "http://" from rfl, toLower_append,
    show toLower (js "http://") = js "http://" from rfl, isPrefixOf_append_self,
    if_pos rfl, List.drop_left' (show (js "http://").length = 7 from rfl)]

theorem schemeSplit_https (rest : JStr) :
    schemeSplit (js "https:" ++ js "//" ++ rest) = some (js "https:", rest) := by
  unfold schemeSplit
  rw [show js "https:" ++ js "//" = js "https://" from rfl, toLower_append,
    show toLower (js "https://") = js "https://" from rfl, http_not_prefixOf_https,
    if_neg (by simp), isPrefixOf_append_self, if_pos rfl,
    List.drop_left' (show (js "https://").length = 8 from rfl)]

theorem schemeSplit_reconstruct (proto rest : JStr)
    (hp : proto = js "http:" ∨ proto = js "https:") :
    schemeSplit (proto ++ js "//" ++ rest) = some (proto, rest) := by
  rcases hp with rfl | rfl
  · exact schemeSplit_http rest
  · exact schemeSplit_https rest

theorem strip_no_www (t : JStr)
    (h2 : (js "http://www.").isPrefixOf (toLower t) = false)
    (h3 : (js "https://www.").isPrefixOf (toLower t) = false) :
    stripWwwFallback t = t := by
  unfold stripWwwFallback
  rw [if_neg (by simp [h2]), if_neg (by simp [h3])]

theorem www_not_prefixOf_ps (ps : JStr) (hps : ps = [] ∨ ∃ port, ps = ':' :: port) :
    (js "www.").isPrefixOf (toLower ps) = false := by
  rcases hps with rfl | ⟨port, rfl⟩
  · rfl
  · rfl

theorem strip_proto_ps (proto ps : JStr)
    (hp : proto = js "http:" ∨ proto = js "https:")
    (hps : ps = [] ∨ ∃ port, ps = ':' :: port) :
    stripWwwFallback (proto ++ js "//" ++ ps) = proto ++ js "//" ++ ps := by
  rcases hp with rfl | rfl
  · refine strip_no_www _ ?_ ?_
    · rw [show js "http:" ++ js "//" = js "http://" from rfl, toLower_append,
        show toLower (js "http://") = js "http://" from rfl,
        show js "http://www." = js "http://" ++ js "www." from rfl,
        isPrefixOf_append_cancel]
      exact www_not_prefixOf_ps ps hps
    · rw [show js "http:" ++ js "//" = js "http://" from rfl, toLower_append,
        show toLower (js "http://") = js "http://" from rfl]
      exact httpswww_not_prefixOf_http _
  · refine strip_no_www _ ?_ ?_
    · rw [show js "https:" ++ js "//" = js "https://" from rfl, toLower_append,
        show toLower (js "https://") = js "https://" from rfl]
      exact httpwww_not_prefixOf_https _
    · rw [show js "https:" ++ js "//" = js "https://" from rfl, toLower_append,
        show toLower (js "https://") = js "https://" from rfl,
        show js "https://www." = js "https://" ++ js "www." from rfl,
        isPrefixOf_append_cancel]
      exact www_not_prefixOf_ps ps hps

theorem parseURL_roundtrip (proto host port : JStr)
    (hp : proto = js "http:" ∨ proto = js "https:")
    (hh : host ≠ []) (hhc : host.all isHostChar = true) (hhl : toLower host = host)
    (hport : port = [] ∨
      ∃ n, n ≤ 65535 ∧ n ≠ defaultPort proto ∧ port = renderNat n) :
    parseURL (proto ++ js "//" ++ (host ++ (if port = [] then [] else ':' :: port))) =
      some ⟨proto, host, port⟩ := by
  have hostMem : ∀ c ∈ host, isHostChar c = true := List.all_eq_true.mp hhc
  rcases hport with rfl | ⟨n, h65, hdef, rfl⟩
  · rw [if_pos rfl, List.append_nil]
    unfold parseURL
    rw [schemeSplit_reconstruct _ _ hp]
    dsimp only
    rw [takeWhile_eq_self_of_all fun c hc => isHostChar_not_reserved (hostMem c hc),
      takeWhile_eq_self_of_all fun c hc => isHostChar_not_colon (hostMem c hc),
      if_neg hh, if_neg (by rw [hhc]; decide), if_pos rfl, hhl]
  · have digMem : ∀ c ∈ renderNat n, isDigitChar c = true :=
      List.all_eq_true.mp (renderNat_all_digits n)
    rw [if_neg (renderNat_ne_nil n)]
    unfold parseURL
    rw [schemeSplit_reconstruct _ _ hp]
    dsimp only
    have hauth : (host ++ ':' :: renderNat n).takeWhile
        (fun c => !(c == '/' || c == '?' || c == '#')) = host ++ ':' :: renderNat n := by
      refine takeWhile_eq_self_of_all fun c hc => ?_
      rcases List.mem_append.mp hc with hc | hc
      · exact isHostChar_not_reserved (hostMem c hc)
      · rcases List.mem_cons.mp hc with rfl | hc
        · decide
        · exact isDigitChar_not_reserved (digMem c hc)
    have hhost : (host ++ ':' :: renderNat n).takeWhile (fun c => !(c == ':')) = host := by
      rw [List.takeWhile_append_of_pos fun c hc => isHostChar_not_colon (hostMem c hc),
        List.takeWhile_cons_of_neg (by decide), List.append_nil]
    rw [hauth, hhost, if_neg hh, if_neg (by rw [hhc]; decide),
      if_neg (by simp)]
    have hdrop : (host ++ ':' :: renderNat n).drop (host.length + 1) = renderNat n := by
      rw [show host ++ ':' :: renderNat n = (host ++ [':']) ++ renderNat n by simp,
        List.drop_left' (by simp)]
    rw [hdrop, if_neg (renderNat_ne_nil n), renderNat_all_digits, if_neg (by decide),
      digitsToNat_renderNat, if_neg (by omega), if_neg hdef, hhl]

theorem parseURL_proto_ps_none (proto ps : JStr)
    (hp : proto = js "http:" ∨ proto = js "https:")
    (hps : ps = [] ∨ ∃ port, ps = ':' :: port ∧ ∀ c ∈ port, isDigitChar c = true) :
    parseURL (proto ++ js "//" ++ ps) = none := by
  unfold parseURL
  rw [schemeSplit_reconstruct _ _ hp]
  dsimp only
  rcases hps with rfl | ⟨port, rfl, hport⟩
  · rfl
  · rw [List.takeWhile_cons_of_pos (by decide),
      takeWhile_eq_self_of_all fun c hc => isDigitChar_not_reserved (hport c hc),
      List.takeWhile_cons_of_neg (by decide), if_pos rfl]

theorem parseURL_inv (s : JStr) (u : ParsedURL) (h : parseURL s = some u) :
    (u.protocol = js "http:" ∨ u.protocol = js "https:") ∧
      u.hostname.all isHostChar = true ∧ toLower u.hostname = u.hostname ∧
      (u.port = [] ∨
        ∃ n, n ≤ 65535 ∧ n ≠ defaultPort u.protocol ∧ u.port = renderNat n) := by
  unfold parseURL at h
  cases hs : schemeSplit s with
  | none =>
    rw [hs] at h
    exact absurd h (by simp)
  | some pr =>
    obtain ⟨protocol, rest⟩ := pr
    have hproto : protocol = js "http:" ∨ protocol = js "https:" := by
      unfold schemeSplit at hs
      split at hs
      · simp only [Option.some.injEq, Prod.mk.injEq] at hs
        exact Or.inl hs.1.symm
      · split at hs
        · simp only [Option.some.injEq, Prod.mk.injEq] at hs
          exact Or.inr hs.1.symm
        · exact absurd hs (by simp)
    rw [hs] at h
    dsimp only at h
    split at h
    · exact absurd h (by simp)
    · split at h
      · exact absurd h (by simp)
      · rename_i hall2
        simp only [Bool.not_eq_true', Bool.not_eq_false] at hall2
        split at h
        · injection h with h'
          subst h'
          exact ⟨hproto, toLower_all_hostChar hall2, toLower_idem _, Or.inl rfl⟩
        · split at h
          · injection h with h'
            subst h'
            exact ⟨hproto, toLower_all_hostChar hall2, toLower_idem _, Or.inl rfl⟩
          · split at h
            · exact absurd h (by simp)
            · split at h
              · exact absurd h (by simp)
              · rename_i h65
                split at h
                · injection h with h'
                  subst h'
                  exact ⟨hproto, toLower_all_hostChar hall2, toLower_idem _, Or.inl rfl⟩
                · rename_i hdef
                  injection h with h'
                  subst h'
                  exact ⟨hproto, toLower_all_hostChar hall2, toLower_idem _,
                    Or.inr ⟨_, by omega, hdef, rfl⟩⟩

theorem normalizeHostname_inv {x : JStr} (hall : x.all isHostChar = true)
    (hlow : toLower x = x) :
    (normalizeHostname x).all isHostChar = true ∧
      toLower (normalizeHostname x) = normalizeHostname x := by
  unfold normalizeHostname
  dsimp only
  rw [hlow]
  split
  · exact ⟨all_hostChar_drop 4 hall, by rw [toLower_drop, hlow]⟩
  · exact ⟨hall, hlow⟩

theorem normalizeHostname_fixpoint {x : JStr} (hlow : toLower x = x)
    (hw : (js "www.").isPrefixOf x = false) : normalizeHostname x = x := by
  unfold normalizeHostname
  dsimp only
  rw [hlow, if_neg (by simp [hw])]

theorem parseURL_port_spec (s : JStr) (u : ParsedURL) (h : parseURL s = some u) :
    (u.port = [] ∧ (explicitPortDigits s = none ∨
        ∃ ds, explicitPortDigits s = some ds ∧ digitsToNat ds = defaultPort u.protocol)) ∨
      (∃ ds, explicitPortDigits s = some ds ∧ digitsToNat ds ≠ defaultPort u.protocol ∧
        u.port = renderNat (digitsToNat ds) ∧ u.port ≠ []) := by
  unfold parseURL at h
  unfold explicitPortDigits
  cases hs : schemeSplit s with
  | none =>
    rw [hs] at h
    exact absurd h (by simp)
  | some pr =>
    obtain ⟨protocol, rest⟩ := pr
    rw [hs] at h
    dsimp only at h ⊢
    split at h
    · exact absurd h (by simp)
    · split at h
      · exact absurd h (by simp)
      · split at h
        · rename_i hlen
          rw [if_pos hlen]
          injection h with h'
          subst h'
          exact Or.inl ⟨rfl, Or.inl rfl⟩
        · rename_i hlen
          rw [if_neg hlen]
          split at h
          · rename_i hpd
            rw [if_pos hpd]
            injection h with h'
            subst h'
            exact Or.inl ⟨rfl, Or.inl rfl⟩
          · rename_i hpd
            rw [if_neg hpd]
            split at h
            · exact absurd h (by simp)
            · split at h
              · exact absurd h (by simp)
              · split at h
                · rename_i hdef
                  injection h with h'
                  subst h'
                  exact Or.inl ⟨rfl, Or.inr ⟨_, rfl, hdef⟩⟩
                · rename_i hdef
                  injection h with h'
                  subst h'
                  exact Or.inr ⟨_, rfl, hdef, rfl, renderNat_ne_nil _⟩

theorem findCurrentSiteIndex_bounds (sites : List JStr) (cs : JStr) :
    -1 ≤ findCurrentSiteIndex sites cs ∧
      findCurrentSiteIndex sites cs < (sites.length : Int) := by
  unfold findCurrentSiteIndex
  cases h : sites.findIdx? (fun site => siteMatches cs site) with
  | none => dsimp only; omega
  | some i =>
    have hi : i < sites.length := (List.findIdx?_eq_some_iff_findIdx_eq.mp h).1
    dsimp only
    omega

theorem navIndices_bounds (k : Int) (n : Nat) (_hk : -1 ≤ k) (hkn : k < (n : Int))
    (hn : 0 < n) :
    0 ≤ (calculateNavigationIndices k n).prevIndex ∧
      (calculateNavigationIndices k n).prevIndex < (n : Int) ∧
      0 ≤ (calculateNavigationIndices k n).nextIndex ∧
      (calculateNavigationIndices k n).nextIndex < (n : Int) := by
  unfold calculateNavigationIndices
  split
  · dsimp only
    omega
  · rename_i hneg
    dsimp only
    refine ⟨?_, ?_, ?_, ?_⟩ <;> split <;> omega

theorem jsArrayGet_eq_some (sites : List JStr) (i : Int) (h0 : 0 ≤ i)
    (h1 : i < (sites.length : Int)) :
    ∃ x, jsArrayGet sites i = some x ∧ x ∈ sites := by
  unfold jsArrayGet
  rw [if_neg (by omega)]
  have hlt : i.toNat < sites.length := by omega
  exact ⟨sites[i.toNat], by simp [List.getElem?_eq_getElem hlt],
    List.getElem_mem hlt⟩

theorem calculateWebRingNavigation_eq (sites : List JStr) (cs w : Option JStr)
    (hn : sites.length ≠ 0) :
    ∃ k : Int, -1 ≤ k ∧ k < (sites.length : Int) ∧
      calculateWebRingNavigation sites cs w =
        { prev := jsArrayGet sites (calculateNavigationIndices k sites.length).prevIndex
          next := jsArrayGet sites (calculateNavigationIndices k sites.length).nextIndex } := by
  refine ⟨if strTruthy cs then findCurrentSiteIndex sites (cs.getD [])
      else match w with
        | some x => findCurrentSiteIndex sites x
        | none => -1, ?_, ?_, ?_⟩
  · split
    · exact (findCurrentSiteIndex_bounds _ _).1
    · cases w <;> dsimp only
      · omega
      · exact (findCurrentSiteIndex_bounds _ _).1
  · split
    · exact (findCurrentSiteIndex_bounds _ _).2
    · cases w <;> dsimp only
      · omega
      · exact (findCurrentSiteIndex_bounds _ _).2
  · unfold calculateWebRingNavigation
    rw [if_neg hn]

/-! ## Claims -/

/-- C1: for every non-empty site list and every current-site value (explicit
or ambient, well-formed or not), both `prev` and `next` of the result are
present and are elements of the list. -/
theorem c1_nonempty_result_members (sites : List JStr)
    (currentSite windowLocationOrigin : Option JStr) (h : sites ≠ []) :
    ∃ p q,
      (calculateWebRingNavigation sites currentSite windowLocationOrigin).prev = some p ∧
      p ∈ sites ∧
      (calculateWebRingNavigation sites currentSite windowLocationOrigin).next = some q ∧
      q ∈ sites := by
  have hn : sites.length ≠ 0 := by simpa [List.length_eq_zero] using h
  obtain ⟨k, hk1, hk2, heq⟩ :=
    calculateWebRingNavigation_eq sites currentSite windowLocationOrigin hn
  obtain ⟨b1, b2, b3, b4⟩ := navIndices_bounds k sites.length hk1 hk2 (by omega)
  obtain ⟨p, hp, hpm⟩ := jsArrayGet_eq_some sites _ b1 b2
  obtain ⟨q, hq, hqm⟩ := jsArrayGet_eq_some sites _ b3 b4
  exact ⟨p, q, by rw [heq]; exact hp, hpm, by rw [heq]; exact hq, hqm⟩

/-- Witness for C1 at the spec's three-site list with no current site. -/
theorem c1_nonempty_result_members_witness :
    demo3 ≠ [] ∧
      ∃ p q, (calculateWebRingNavigation demo3 none none).prev = some p ∧
        p ∈ demo3 ∧
        (calculateWebRingNavigation demo3 none none).next = some q ∧ q ∈ demo3 :=
  ⟨by decide, c1_nonempty_result_members demo3 none none (by decide)⟩

/-- C2: for the empty site list the result is `{ prev := none, next := none }`
for every explicit current-site value and every ambient location. -/
theorem c2_empty_list_short_circuit (currentSite windowLocationOrigin : Option JStr) :
    calculateWebRingNavigation [] currentSite windowLocationOrigin =
      { prev := none, next := none } := rfl

/-- C3: for `0 ≤ p < n` the wraparound calculator returns `p - 1` (wrapping
to `n - 1` at `p = 0`) and `p + 1` (wrapping to `0` at `p = n - 1`); in
particular on the spec's three-entry list, navigating from `L[0]` gives
`prev = L[2]`, `next = L[1]`, and from `L[2]` gives `prev = L[1]`,
`next = L[0]`. -/
theorem c3_wraparound (n : Nat) (p : Int) (h0 : 0 ≤ p) (_h1 : p < (n : Int)) :
    calculateNavigationIndices p n =
      { prevIndex := if p = 0 then (n : Int) - 1 else p - 1
        nextIndex := if p = (n : Int) - 1 then 0 else p + 1 } ∧
    calculateWebRingNavigation demo3 (some (js "https://a.example")) none =
      { prev := some (js "https://c.example"), next := some (js "https://b.example") } ∧
    calculateWebRingNavigation demo3 (some (js "https://c.example")) none =
      { prev := some (js "https://b.example"), next := some (js "https://a.example") } := by
  refine ⟨?_, by decide, by decide⟩
  unfold calculateNavigationIndices
  rw [if_neg (by omega)]

/-- Witness for C3 at `n = 3`, `p = 2`. -/
theorem c3_wraparound_witness :
    ((0 : Int) ≤ 2 ∧ (2 : Int) < ((3 : Nat) : Int)) ∧
      (calculateNavigationIndices 2 3 =
          { prevIndex := if (2 : Int) = 0 then ((3 : Nat) : Int) - 1 else 2 - 1
            nextIndex := if (2 : Int) = ((3 : Nat) : Int) - 1 then 0 else 2 + 1 } ∧
        calculateWebRingNavigation demo3 (some (js "https://a.example")) none =
          { prev := some (js "https://c.example"), next := some (js "https://b.example") } ∧
        calculateWebRingNavigation demo3 (some (js "https://c.example")) none =
          { prev := some (js "https://b.example"), next := some (js "https://a.example") }) :=
  ⟨by decide, c3_wraparound 3 2 (by decide) (by decide)⟩

/-- C4: for a non-empty list, a truthy current site that is not found
(position -1), or no current-site value at all, yields `prev` = last entry
and `next` = first entry. -/
theorem c4_hub_case (sites : List JStr) (cs : JStr) (windowLocationOrigin : Option JStr)
    (h1 : sites ≠ []) (h2 : cs ≠ []) (h3 : findCurrentSiteIndex sites cs = -1) :
    calculateWebRingNavigation sites (some cs) windowLocationOrigin =
      { prev := sites[sites.length - 1]?, next := sites[0]? } ∧
    calculateWebRingNavigation sites none none =
      { prev := sites[sites.length - 1]?, next := sites[0]? } := by
  have hn : sites.length ≠ 0 := by simpa [List.length_eq_zero] using h1
  have hT : strTruthy (some cs) = true := by
    simp [strTruthy, h2]
  have hnav : calculateNavigationIndices (-1) sites.length =
      { prevIndex := (sites.length : Int) - 1, nextIndex := 0 } := by
    unfold calculateNavigationIndices
    rw [if_pos (by omega)]
  have hprev : jsArrayGet sites ((sites.length : Int) - 1) = sites[sites.length - 1]? := by
    unfold jsArrayGet
    rw [if_neg (by omega)]
    congr 1
    omega
  have hnext : jsArrayGet sites 0 = sites[0]? := rfl
  constructor
  · unfold calculateWebRingNavigation
    rw [if_neg hn]
    simp only [hT, if_true, Option.getD_some, h3, hnav]
    rw [hprev, hnext]
  · unfold calculateWebRingNavigation
    rw [if_neg hn]
    simp only [strTruthy, Bool.false_eq_true, if_false, hnav]
    rw [hprev, hnext]

/-- Witness for C4: the spec's three-site list with a well-formed but
foreign current site. -/
theorem c4_hub_case_witness :
    (demo3 ≠ [] ∧ js "https://x.example" ≠ [] ∧
        findCurrentSiteIndex demo3 (js "https://x.example") = -1) ∧
      (calculateWebRingNavigation demo3 (some (js "https://x.example")) none =
          { prev := demo3[demo3.length - 1]?, next := demo3[0]? } ∧
        calculateWebRingNavigation demo3 none none =
          { prev := demo3[demo3.length - 1]?, next := demo3[0]? }) :=
  ⟨by decide, c4_hub_case demo3 (js "https://x.example") none (by decide) (by decide)
    (by decide)⟩

/-- C5: the normalizer is total by construction; whenever URL parsing fails
it returns exactly the regex-fallback substitution of its input. -/
theorem c5_fallback_total (s : JStr) (h : parseURL s = none) :
    normalizeOrigin s = stripWwwFallback s := by
  unfold normalizeOrigin
  rw [h]

/-- Witness for C5 at an unparseable input. -/
theorem c5_fallback_total_witness :
    parseURL (js "not a url") = none ∧
      normalizeOrigin (js "not a url") = stripWwwFallback (js "not a url") :=
  ⟨by decide, c5_fallback_total (js "not a url") (by decide)⟩

/-- C6: `www.`-equivalence on the spec's example: the current site
`https://www.b.example` matches index 1 of the list, so `prev` is
`https://a.example` and `next` is `https://c.example`. -/
theorem c6_www_equivalence :
    findCurrentSiteIndex demo3 (js "https://www.b.example") = 1 ∧
      calculateWebRingNavigation demo3 (some (js "https://www.b.example")) none =
        { prev := some (js "https://a.example"), next := some (js "https://c.example") } := by
  constructor
  · decide
  · decide

/-- C7: whenever parsing of the entry or of the current-site string fails,
the match predicate degenerates to raw string equality; on the spec's
example, the unparseable current site `not a url` is found nowhere and the
result equals the hub (not-found) case. -/
theorem c7_parse_failure_raw_equality (site cs : JStr)
    (h : parseURL site = none ∨ parseURL cs = none) :
    siteMatches cs site = (site == cs) ∧
      findCurrentSiteIndex demo3 (js "not a url") = -1 ∧
      calculateWebRingNavigation demo3 (some (js "not a url")) none =
        calculateWebRingNavigation demo3 none none := by
  refine ⟨?_, by decide, by decide⟩
  unfold siteMatches
  cases hs : parseURL site with
  | none => rfl
  | some u =>
    cases hc : parseURL cs with
    | none => rfl
    | some v =>
      rcases h with h | h
      · rw [hs] at h
        exact absurd h (by simp)
      · rw [hc] at h
        exact absurd h (by simp)

/-- Witness for C7 at an unparseable current-site string. -/
theorem c7_parse_failure_raw_equality_witness :
    (parseURL (js "https://a.example") = none ∨ parseURL (js "not a url") = none) ∧
      (siteMatches (js "not a url") (js "https://a.example") =
          (js "https://a.example" == js "not a url") ∧
        findCurrentSiteIndex demo3 (js "not a url") = -1 ∧
        calculateWebRingNavigation demo3 (some (js "not a url")) none =
          calculateWebRingNavigation demo3 none none) :=
  ⟨Or.inr (by decide),
    c7_parse_failure_raw_equality (js "https://a.example") (js "not a url")
      (Or.inr (by decide))⟩

/-- C8 counterexample: normalisation strips only one `www.` label, so a
doubled `www.www.` host is not a fixed point after one application:
normalising `https://www.www.example.com` gives `https://www.example.com`,
and normalising again gives `https://example.com`. -/
theorem c8_counterexample_not_idempotent :
    normalizeOrigin (normalizeOrigin (js "https://www.www.example.com")) ≠
      normalizeOrigin (js "https://www.www.example.com") := by decide

/-- C8 (amended): normalisation is idempotent on every input whose single
normalisation already removed all strippable `www.` text (`wwwStable`): the
parsed path's normalised hostname, or the fallback path's output, no longer
begins with a strippable `www.`. -/
theorem c8_amended_idempotent_of_wwwStable (s : JStr) (h : wwwStable s = true) :
    normalizeOrigin (normalizeOrigin s) = normalizeOrigin s := by
  unfold wwwStable at h
  cases hp : parseURL s with
  | none =>
    rw [hp] at h
    simp only [Bool.and_eq_true, beq_iff_eq, Bool.not_eq_true'] at h
    obtain ⟨⟨h1, h2⟩, h3⟩ := h
    have e : normalizeOrigin s = stripWwwFallback s := by
      unfold normalizeOrigin
      rw [hp]
    rw [e]
    unfold normalizeOrigin
    rw [h1]
    exact strip_no_www _ h2 h3
  | some u =>
    rw [hp] at h
    have hw : (js "www.").isPrefixOf (normalizeHostname u.hostname) = false := by
      simpa using h
    obtain ⟨hproto, hall, hlow, hport⟩ := parseURL_inv s u hp
    obtain ⟨hall2, hlow2⟩ := normalizeHostname_inv hall hlow
    have e : normalizeOrigin s =
        u.protocol ++ js "//" ++ (normalizeHostname u.hostname ++
          (if u.port = [] then [] else ':' :: u.port)) := by
      unfold normalizeOrigin
      rw [hp]
      dsimp only
      simp [List.append_assoc]
    by_cases hnil : normalizeHostname u.hostname = []
    · have hps : (if u.port = [] then ([] : JStr) else ':' :: u.port) = [] ∨
          ∃ port, (if u.port = [] then ([] : JStr) else ':' :: u.port) = ':' :: port ∧
            ∀ c ∈ port, isDigitChar c = true := by
        rcases hport with hp0 | ⟨n, _, _, hpn⟩
        · rw [hp0]
          exact Or.inl rfl
        · rw [hpn, if_neg (renderNat_ne_nil n)]
          exact Or.inr ⟨renderNat n, rfl, List.all_eq_true.mp (renderNat_all_digits n)⟩
      have e2 : normalizeOrigin s = u.protocol ++ js "//" ++
          (if u.port = [] then [] else ':' :: u.port) := by
        rw [e, hnil, List.nil_append]
      rw [e2]
      unfold normalizeOrigin
      rw [parseURL_proto_ps_none u.protocol _ hproto hps]
      exact strip_proto_ps u.protocol _ hproto
        (hps.imp id fun ⟨port, h1, _⟩ => ⟨port, h1⟩)
    · have hrt := parseURL_roundtrip u.protocol (normalizeHostname u.hostname) u.port
        hproto hnil hall2 hlow2 (by
          rcases hport with hp0 | ⟨n, hn1, hn2, hn3⟩
          · exact Or.inl hp0
          · exact Or.inr ⟨n, hn1, hn2, hn3⟩)
      rw [e]
      unfold normalizeOrigin
      rw [hrt]
      dsimp only
      rw [normalizeHostname_fixpoint hlow2 hw, List.append_assoc]

/-- Witness for C8 (amended) at a singly-`www.`-prefixed host. -/
theorem c8_amended_idempotent_witness :
    wwwStable (js "https://www.b.example") = true ∧
      normalizeOrigin (normalizeOrigin (js "https://www.b.example")) =
        normalizeOrigin (js "https://www.b.example") :=
  ⟨by decide, c8_amended_idempotent_of_wwwStable (js "https://www.b.example") (by decide)⟩

/-- C9 counterexample: `https://example.com:443` parses successfully with an
explicit port in the input, yet the canonical string carries no port suffix,
because the URL parser elides a scheme's default port. -/
theorem c9_counterexample_default_port :
    explicitPortDigits (js "https://example.com:443") = some (js "443") ∧
      (parseURL (js "https://example.com:443")).isSome = true ∧
      normalizeOrigin (js "https://example.com:443") = js "https://example.com" := by
  refine ⟨by decide, by decide, by decide⟩

/-- C9 (amended): for every successfully parsed input, the canonical string
is `scheme//normalizedHost` exactly when no port is written in the input or
the written port equals the scheme's default; it carries a `:port` suffix
exactly when a non-default port is written, and that suffix serialises the
written digits. -/
theorem c9_amended_port_suffix (s : JStr) (u : ParsedURL) (h : parseURL s = some u) :
    (u.port = [] →
      normalizeOrigin s = u.protocol ++ js "//" ++ normalizeHostname u.hostname ∧
        (explicitPortDigits s = none ∨
          ∃ ds, explicitPortDigits s = some ds ∧ digitsToNat ds = defaultPort u.protocol)) ∧
    (u.port ≠ [] →
      normalizeOrigin s =
          u.protocol ++ js "//" ++ normalizeHostname u.hostname ++ ':' :: u.port ∧
        ∃ ds, explicitPortDigits s = some ds ∧
          digitsToNat ds ≠ defaultPort u.protocol ∧ u.port = renderNat (digitsToNat ds)) := by
  have hno : normalizeOrigin s =
      u.protocol ++ js "//" ++ normalizeHostname u.hostname ++
        (if u.port = [] then [] else ':' :: u.port) := by
    unfold normalizeOrigin
    rw [h]
  have hspec := parseURL_port_spec s u h
  constructor
  · intro hput
    rw [hput] at hno
    refine ⟨by rw [hno]; simp, ?_⟩
    rcases hspec with ⟨_, hs⟩ | ⟨ds, _, _, _, hne⟩
    · exact hs
    · exact absurd hput hne
  · intro hput
    rw [if_neg hput] at hno
    refine ⟨hno, ?_⟩
    rcases hspec with ⟨hp0, _⟩ | ⟨ds, h1, h2, h3, _⟩
    · exact absurd hp0 hput
    · exact ⟨ds, h1, h2, h3⟩

/-- Witness for C9 (amended) at an input with an explicit non-default
port. -/
theorem c9_amended_port_suffix_witness :
    parseURL (js "https://example.com:8443") =
        some ⟨js "https:", js "example.com", js "8443"⟩ ∧
      ((js "8443" : JStr) = [] →
        normalizeOrigin (js "https://example.com:8443") =
          js "https:" ++ js "//" ++ normalizeHostname (js "example.com") ∧
          (explicitPortDigits (js "https://example.com:8443") = none ∨
            ∃ ds, explicitPortDigits (js "https://example.com:8443") = some ds ∧
              digitsToNat ds = defaultPort (js "https:"))) ∧
      ((js "8443" : JStr) ≠ [] →
        normalizeOrigin (js "https://example.com:8443") =
            js "https:" ++ js "//" ++ normalizeHostname (js "example.com") ++
              ':' :: js "8443" ∧
          ∃ ds, explicitPortDigits (js "https://example.com:8443") = some ds ∧
            digitsToNat ds ≠ defaultPort (js "https:") ∧
            (js "8443" : JStr) = renderNat (digitsToNat ds)) :=
  ⟨by decide,
    (c9_amended_port_suffix (js "https://example.com:8443")
        ⟨js "https:", js "example.com", js "8443"⟩ (by decide)).1,
    (c9_amended_port_suffix (js "https://example.com:8443")
        ⟨js "https:", js "example.com", js "8443"⟩ (by decide)).2⟩

/-- C10: a non-empty explicit current-site argument makes the result
independent of the ambient location, and an empty-string argument behaves
exactly like an omitted one. -/
theorem c10_explicit_overrides_ambient (sites : List JStr) (cs : JStr)
    (w1 w2 w : Option JStr) (h : cs ≠ []) :
    calculateWebRingNavigation sites (some cs) w1 =
        calculateWebRingNavigation sites (some cs) w2 ∧
      calculateWebRingNavigation sites (some []) w =
        calculateWebRingNavigation sites none w := by
  have hT : strTruthy (some cs) = true := by simp [strTruthy, h]
  constructor
  · unfold calculateWebRingNavigation
    simp only [hT, if_true]
  · unfold calculateWebRingNavigation
    simp only [strTruthy, List.isEmpty_nil, Bool.not_true, Bool.false_eq_true, if_false]

/-- Witness for C10 with two distinct ambient locations. -/
theorem c10_explicit_overrides_ambient_witness :
    js "https://b.example" ≠ [] ∧
      (calculateWebRingNavigation demo3 (some (js "https://b.example"))
            (some (js "https://a.example")) =
          calculateWebRingNavigation demo3 (some (js "https://b.example"))
            (some (js "https://c.example")) ∧
        calculateWebRingNavigation demo3 (some []) (some (js "https://a.example")) =
          calculateWebRingNavigation demo3 none (some (js "https://a.example"))) :=
  ⟨by decide,
    c10_explicit_overrides_ambient demo3 (js "https://b.example")
      (some (js "https://a.example")) (some (js "https://c.example"))
      (some (js "https://a.example")) (by decide)⟩
